import Mathlib

/-!
# Verification of the protokol log-capture core

Shallow embedding of the protokol repository's core logic:

* the glob-style pattern matcher (`pkg/watcher/watcher.go`, functions
  `nameMatches` / `needleMatchesPatterns`, which delegate wildcard patterns
  to Go's standard-library `path/filepath.Match`),
* the reconciliation engine (`pkg/watcher/watcher.go`, `Watcher.Watch` and
  the `startLogCollectors*` family, with the `seenContainers` seen-set),
* the disk collector (`pkg/collector/disk.go`: `CollectPodMetadata`,
  `CollectLogs`, `getContainerIncarnation`),
* the multiplex collector (`pkg/collector/multiplex.go`: sequential
  delegation for metadata/events, tee-based fan-out for log capture).

Strings are modelled as Lean `String` / `List Char`; Go runes are `Char`;
Go `nil`-able pointers are `Option`; Go `error` results are `Except`.
-/

namespace Protokol

/-! ## Go `path/filepath.Match` (standard library collaborator)

The watcher's `nameMatches` calls `filepath.Match` for patterns containing
a `*`.  The embedding below follows Go's `path/filepath/match.go`
(`scanChunk`, `matchChunk`, `getEsc`, `Match`) on `List Char`, with the
path separator fixed to `/` (the unix build).  `Except Unit` carries
Go's `ErrBadPattern`.  The local mutable variables of the Go loops become
accumulator arguments.
-/

/-- Go `getEsc`: parse one (possibly `\`-escaped) class character; errors on
`ErrBadPattern` conditions (empty chunk, leading `-` or `]`, dangling escape,
or an unclosed class, i.e. an empty remainder). -/
def getEsc : List Char → Except Unit (Char × List Char)
  | [] => .error ()
  | c :: rest =>
    if c = '-' ∨ c = ']' then .error ()
    else if c = '\\' then
      match rest with
      | [] => .error ()
      | r :: rest2 => if rest2.isEmpty then .error () else .ok (r, rest2)
    else if rest.isEmpty then .error () else .ok (c, rest)

/-- The range-parsing loop inside Go `matchChunk`'s `[` case: `r` is the rune
read from the name (the zero rune when the match has already failed),
`matched`/`nrange` are the loop's local variables.  Returns the match flag
and the chunk remainder after the closing `]`.  The loop consumes at least
one chunk character per iteration, so `fuel` bounds its trip count; callers
pass `chunk.length + 1` and the `fuel = 0` branch is unreachable (fuel only
encodes termination of the Go loop). -/
def classRanges (fuel : Nat) (r : Char) (matched : Bool) (nrange : Nat)
    (chunk : List Char) : Except Unit (Bool × List Char) :=
  match fuel with
  | 0 => .error ()
  | fuel + 1 =>
    if chunk.head? = some ']' ∧ 0 < nrange then
      .ok (matched, chunk.tail)
    else
      match getEsc chunk with
      | .error () => .error ()
      | .ok (lo, chunk1) =>
        match chunk1 with
        | [] => .error ()
        | d :: chunk2 =>
          if d = '-' then
            match getEsc chunk2 with
            | .error () => .error ()
            | .ok (hi, chunk3) =>
              classRanges fuel r (matched || (decide (lo ≤ r) && decide (r ≤ hi)))
                (nrange + 1) chunk3
          else
            classRanges fuel r (matched || (decide (lo ≤ r) && decide (r ≤ lo)))
              (nrange + 1) (d :: chunk2)

/-- The full `[`-class step of Go `matchChunk`: consume an optional leading
`^` (negation) and the ranges up to `]`.  Returns `(failedClass, rest)` where
`failedClass` is Go's `match == negated` (the class rejects the rune `r`). -/
def classMatch (r : Char) (rest : List Char) : Except Unit (Bool × List Char) :=
  match rest with
  | '^' :: rest1 =>
    match classRanges (rest1.length + 1) r false 0 rest1 with
    | .error () => .error ()
    | .ok (m, rest2) => .ok (m == true, rest2)
  | _ =>
    match classRanges (rest.length + 1) r false 0 rest with
    | .error () => .error ()
    | .ok (m, rest2) => .ok (m == false, rest2)

/-- Go `matchChunk`'s loop, with Go's local `failed` flag as an accumulator
(the chunk is still checked for validity after a failure).  Result:
`.error ()` on `ErrBadPattern`, `.ok (some rest)` on a match leaving `rest`
of the name, `.ok none` on a clean mismatch.  Every iteration consumes at
least one chunk character, so `fuel` (set to `chunk.length + 1` by the
`matchChunk` wrapper) bounds the trip count and the `fuel = 0` branch is
unreachable. -/
def matchChunkF (fuel : Nat) (failed : Bool) (chunk s : List Char) :
    Except Unit (Option (List Char)) :=
  match fuel with
  | 0 => .error ()
  | fuel + 1 =>
    match chunk with
    | [] => if failed then .ok none else .ok (some s)
    | c :: rest =>
      -- Go: `if !failed && len(s) == 0 { failed = true }`
      let failed1 := failed || s.isEmpty
      if c == '[' then
        -- Go: `var r rune; if !failed { r, n = decodeRune(s); s = s[n:] }`,
        -- then parse the (possibly `^`-negated) class and set
        -- `failed = true` when `match == negated`
        match classMatch (if failed1 then '\x00' else s.headD '\x00') rest with
        | .error () => .error ()
        | .ok (failcls, rest2) =>
          matchChunkF fuel (failed1 || failcls) rest2 (if failed1 then s else s.tail)
      else if c == '?' then
        -- Go: `if !failed { if s[0] == Separator { failed = true }; s = s[n:] }`
        match s, failed1 with
        | x :: xs, false => matchChunkF fuel (x == '/') rest xs
        | _, _ => matchChunkF fuel failed1 rest s
      else if c == '\\' then
        -- Go: escape consumes the next pattern char, error if there is none,
        -- then falls through to the literal comparison
        match rest with
        | [] => .error ()
        | d :: rest2 =>
          match s, failed1 with
          | x :: xs, false => matchChunkF fuel (!(d == x)) rest2 xs
          | _, _ => matchChunkF fuel failed1 rest2 s
      else
        -- Go default: literal byte comparison
        match s, failed1 with
        | x :: xs, false => matchChunkF fuel (!(c == x)) rest xs
        | _, _ => matchChunkF fuel failed1 rest s

/-- Go `matchChunk(chunk, s)` (fresh `failed = false` at every call site). -/
def matchChunk (failed : Bool) (chunk s : List Char) : Except Unit (Option (List Char)) :=
  matchChunkF (chunk.length + 1) failed chunk s

/-- The `Scan` loop of Go `scanChunk`: take pattern characters up to the next
top-level `*`, tracking the in-`[]` state and skipping escaped characters. -/
def scanChunkBody (inrange : Bool) (p : List Char) : List Char × List Char :=
  match p with
  | [] => ([], [])
  | c :: rest =>
    if c == '*' && !inrange then ([], c :: rest)
    else if c == '\\' then
      -- Go: `if i+1 < len(pattern) { i++ }`
      match rest with
      | [] => ([c], [])
      | d :: rest2 =>
        let pr := scanChunkBody inrange rest2
        (c :: d :: pr.1, pr.2)
    else
      let inr := if c == '[' then true else if c == ']' then false else inrange
      let pr := scanChunkBody inr rest
      (c :: pr.1, pr.2)

/-- Leading-`*` consumption of Go `scanChunk`:
`for len(pattern) > 0 && pattern[0] == '*' { pattern = pattern[1:]; star = true }`. -/
def takeStars : List Char → Bool × List Char
  | [] => (false, [])
  | c :: rest => if c == '*' then (true, (takeStars rest).2) else (false, c :: rest)

/-- Go `scanChunk`: split a pattern into its first chunk (with star flag) and
the remaining pattern. -/
def scanChunk (p : List Char) : Bool × List Char × List Char :=
  let st := takeStars p
  let body := scanChunkBody false st.2
  (st.1, body.1, body.2)

/-- One scanned pattern chunk: a run of leading `*`s (recorded as a single
flag, as in Go) followed by a wildcard-free segment. -/
structure GoChunk where
  star : Bool
  chunk : List Char
  deriving DecidableEq, Repr

/-- All chunks of a pattern, scanned left to right (Go `Match`'s outer loop
calls `scanChunk` once per iteration; each call consumes at least one
pattern character, so `fuel = p.length + 1` from the `scanAll` wrapper makes
the `fuel = 0` branch unreachable). -/
def scanAllF (fuel : Nat) (p : List Char) : List GoChunk :=
  match fuel with
  | 0 => []
  | fuel + 1 =>
    match p with
    | [] => []
    | _ :: _ =>
      ⟨(scanChunk p).1, (scanChunk p).2.1⟩ :: scanAllF fuel (scanChunk p).2.2

def scanAll (p : List Char) : List GoChunk :=
  scanAllF (p.length + 1) p

/-- The star-backtracking loop of Go `Match`: try to match `chunk` starting
after each skipped name character (the star absorbs `i+1` bytes, never a
`/`).  `lastChunk` is Go's `len(pattern) == 0` check: when the chunk is the
last one, a match must exhaust the name.  Returns the first acceptable
remainder (Go commits to it via `continue Pattern`). -/
def starSearch (chunk : List Char) (lastChunk : Bool) : List Char → Except Unit (Option (List Char))
  | [] => .ok none
  | x :: xs =>
    if x == '/' then .ok none
    else
      match matchChunk false chunk xs with
      | .error () => .error ()
      | .ok none => starSearch chunk lastChunk xs
      | .ok (some t) =>
        if lastChunk && !t.isEmpty then starSearch chunk lastChunk xs
        else .ok (some t)

/-- The final validity sweep of Go `Match`: before returning `false` with no
error, every remaining chunk is checked against the empty name so that a
syntactically bad pattern still reports `ErrBadPattern`. -/
def checkRemaining : List GoChunk → Except Unit Bool
  | [] => .ok false
  | c :: rest =>
    match matchChunk false c.chunk [] with
    | .error () => .error ()
    | .ok _ => checkRemaining rest

/-- The outer `Pattern` loop of Go `Match`, over the scanned chunks. -/
def matchChunks (chunks : List GoChunk) (name : List Char) : Except Unit Bool :=
  match chunks with
  | [] => .ok name.isEmpty
  | gc :: rest =>
    -- Go: `if star && chunk == "" { return !strings.Contains(name, "/") }`
    -- (a trailing `*` can only be the final chunk)
    if gc.star && gc.chunk.isEmpty then .ok (!name.contains '/')
    else
      match matchChunk false gc.chunk name with
      | .error () => .error ()
      | .ok r =>
        -- Go: `if ok && (len(t) == 0 || len(pattern) > 0) { name = t; continue }`
        match if let some t := r then (if t.isEmpty || !rest.isEmpty then some t else none) else none with
        | some t => matchChunks rest t
        | none =>
          if gc.star then
            match starSearch gc.chunk rest.isEmpty name with
            | .error () => .error ()
            | .ok (some t) => matchChunks rest t
            | .ok none => checkRemaining rest
          else checkRemaining rest

/-- Go `path/filepath.Match` on rune lists. -/
def goMatch (pattern name : List Char) : Except Unit Bool :=
  matchChunks (scanAll pattern) name

/-- `pkg/watcher/watcher.go` `nameMatches`: wildcard patterns go through
`filepath.Match` with the error discarded (`matched, _ := filepath.Match`,
and `matched` is `false` whenever `Match` errors); wildcard-free patterns
require exact equality. -/
def nameMatches (name pattern : String) : Bool :=
  if pattern.data.contains '*' then
    match goMatch pattern.data name.data with
    | .error () => false
    | .ok matched => matched
  else name == pattern

/-- `pkg/watcher/watcher.go` `needleMatchesPatterns`: empty pattern set
accepts everything, otherwise first match wins (logical OR). -/
def needleMatchesPatterns (needle : String) (patterns : List String) : Bool :=
  if patterns.isEmpty then true
  else patterns.any (fun pattern => nameMatches needle pattern)

/-! ## Data model (`k8s.io/api/core/v1` as used by the watcher)

Only the fields the watcher and the collectors read are modelled.
`running`/`terminated` represent the presence of the corresponding
`ContainerState` sub-objects (`status.State.Running != nil`,
`status.State.Terminated != nil`); a container whose state has neither
sub-object is the Waiting phase.  The Go field `Namespace` is spelled
`nspace` because `namespace` is a Lean keyword. -/

structure Container where
  name : String
  deriving DecidableEq, Repr

structure ContainerStatus where
  name : String
  restartCount : Nat
  running : Bool
  terminated : Bool
  deriving DecidableEq, Repr

structure PodSpec where
  initContainers : List Container
  containers : List Container
  deriving DecidableEq, Repr

structure PodStatus where
  initContainerStatuses : List ContainerStatus
  containerStatuses : List ContainerStatus
  deriving DecidableEq, Repr

structure Pod where
  name : String
  nspace : String
  spec : PodSpec
  status : PodStatus
  deriving DecidableEq, Repr

/-! ## Reconciliation engine (`pkg/watcher/watcher.go`)

The `Watcher` struct splits into the immutable configuration (`Config`,
the fields set in `NewWatcher`) and the mutable state threaded through the
event loop (`WState`: the `seenContainers` string set plus the record of
launched `collectLogs` goroutines, which in Go are the side effects of
`go w.collectLogs(...)`).  `sets.String` is modelled as a `List String`
with membership semantics. -/

structure Config where
  namespaces : List String
  resourceNames : List String
  containerNames : List String
  runningOnly : Bool
  deriving DecidableEq, Repr

/-- One launched capture task: the arguments of `go w.collectLogs(ctx,
containerLog, pod, containerName, int(status.RestartCount))`. -/
structure Launch where
  pod : Pod
  containerName : String
  restartCount : Nat
  deriving DecidableEq, Repr

structure WState where
  seenContainers : List String
  launches : List Launch
  deriving DecidableEq, Repr

/-- `w.containerNameMatches(containerName)`. -/
def containerNameMatches (cfg : Config) (containerName : String) : Bool :=
  needleMatchesPatterns containerName cfg.containerNames

/-- `w.podMatchesCriteria(pod)`: resource name patterns, then namespace
patterns (the src watcher has no label selector). -/
def podMatchesCriteria (cfg : Config) (pod : Pod) : Bool :=
  needleMatchesPatterns pod.name cfg.resourceNames &&
    needleMatchesPatterns pod.nspace cfg.namespaces

/-- The status lookup loop: `for i, s := range statuses { if s.Name ==
containerName { status = &statuses[i]; break } }`. -/
def findStatus (statuses : List ContainerStatus) (containerName : String) :
    Option ContainerStatus :=
  statuses.find? (fun s => s.name == containerName)

/-- The CaptureIdentity key: `fmt.Sprintf("%s:%s:%s:%d", pod.Namespace,
pod.Name, containerName, status.RestartCount)`. -/
def ident (pod : Pod) (containerName : String) (restartCount : Nat) : String :=
  pod.nspace ++ ":" ++ pod.name ++ ":" ++ containerName ++ ":" ++ toString restartCount

/-- The body of the `for _, container := range containers` loop in
`startLogCollectorsForContainers`: name filter, status lookup, phase
gating (per `runningOnly`), seen-set check-and-insert, launch. -/
def processContainer (cfg : Config) (pod : Pod) (statuses : List ContainerStatus)
    (st : WState) (container : Container) : WState :=
  if !containerNameMatches cfg container.name then st
  else
    match findStatus statuses container.name with
    | none => st  -- container has no status yet
    | some status =>
      if cfg.runningOnly && !status.running then st
      else if !cfg.runningOnly && !status.running && !status.terminated then st
      else
        -- `ident` is the local `ident` string of the Go loop body
        if st.seenContainers.contains (ident pod container.name status.restartCount) then st
        else
          { seenContainers :=
              ident pod container.name status.restartCount :: st.seenContainers,
            launches := st.launches ++ [⟨pod, container.name, status.restartCount⟩] }

/-- `w.startLogCollectorsForContainers(ctx, pod, containers, statuses)`. -/
def startLogCollectorsForContainers (cfg : Config) (pod : Pod)
    (containers : List Container) (statuses : List ContainerStatus)
    (st : WState) : WState :=
  containers.foldl (processContainer cfg pod statuses) st

/-- `w.startLogCollectors(ctx, pod)`: init containers first, then regular
containers, each with their own status list. -/
def startLogCollectors (cfg : Config) (pod : Pod) (st : WState) : WState :=
  startLogCollectorsForContainers cfg pod pod.spec.containers
    pod.status.containerStatuses
    (startLogCollectorsForContainers cfg pod pod.spec.initContainers
      pod.status.initContainerStatuses st)

/-- One iteration of the `for event := range wi.ResultChan()` loop in
`Watcher.Watch`; `none` stands for an event whose object is not pod-shaped
or fails to convert (the loop `continue`s). -/
def watchEvent (cfg : Config) (st : WState) (event : Option Pod) : WState :=
  match event with
  | none => st
  | some pod => if podMatchesCriteria cfg pod then startLogCollectors cfg pod st else st

/-- `Watcher.Watch` over a finite observation sequence, starting from the
fresh state of `NewWatcher` (`seenContainers: sets.NewString()`). -/
def watchRun (cfg : Config) (events : List (Option Pod)) : WState :=
  events.foldl (watchEvent cfg) ⟨[], []⟩

/-- The CaptureIdentity of a launched task. -/
def launchIdent (l : Launch) : String :=
  ident l.pod l.containerName l.restartCount

/-! Specification-side view of the engine's acceptance checks: the ident a
single container observation contributes when it passes every check of
`startLogCollectorsForContainers` up to (but not including) the seen-set
check.  These definitions mirror the source checks one-for-one and are
related to the implementation by the C1 theorem. -/

/-- The ident contributed by one container observation if it passes the name
filter, has a status, and passes phase gating; `none` otherwise. -/
def containerAcceptedIdent (cfg : Config) (pod : Pod)
    (statuses : List ContainerStatus) (container : Container) : Option String :=
  if !containerNameMatches cfg container.name then none
  else
    match findStatus statuses container.name with
    | none => none
    | some status =>
      if cfg.runningOnly && !status.running then none
      else if !cfg.runningOnly && !status.running && !status.terminated then none
      else some (ident pod container.name status.restartCount)

/-- All idents a pod observation presents for acceptance, in the order the
engine visits them (init containers, then regular containers). -/
def podAcceptedIdents (cfg : Config) (pod : Pod) : List String :=
  if podMatchesCriteria cfg pod then
    pod.spec.initContainers.filterMap
        (containerAcceptedIdent cfg pod pod.status.initContainerStatuses) ++
      pod.spec.containers.filterMap
        (containerAcceptedIdent cfg pod pod.status.containerStatuses)
  else []

/-- Idents presented by one watch event (`none` events present nothing). -/
def eventAcceptedIdents (cfg : Config) (event : Option Pod) : List String :=
  match event with
  | none => []
  | some pod => podAcceptedIdents cfg pod

theorem processContainer_mem_seen (cfg : Config) (pod : Pod)
    (statuses : List ContainerStatus) (st : WState) (container : Container)
    (s : String) :
    (s ∈ (processContainer cfg pod statuses st container).seenContainers ↔
      s ∈ st.seenContainers ∨
        containerAcceptedIdent cfg pod statuses container = some s) := by
  unfold processContainer containerAcceptedIdent
  split
  · simp
  · split
    · simp
    · rename_i status heq
      split
      · simp
      · split
        · simp
        · split
          · rename_i hcont
            rw [List.elem_iff] at hcont
            simp only [Option.some.injEq]
            exact ⟨Or.inl, fun h => h.elim id (fun he => he ▸ hcont)⟩
          · rename_i hcont
            simp only [List.mem_cons, Option.some.injEq]
            constructor
            · rintro (rfl | h)
              · exact Or.inr rfl
              · exact Or.inl h
            · rintro (h | rfl)
              · exact Or.inr h
              · exact Or.inl rfl

theorem processContainer_count (cfg : Config) (pod : Pod)
    (statuses : List ContainerStatus) (st : WState) (container : Container)
    (s : String) :
    (((processContainer cfg pod statuses st container).launches.map launchIdent).count s =
      ((st.launches.map launchIdent).count s) +
        (if s ∈ st.seenContainers then 0
         else if containerAcceptedIdent cfg pod statuses container = some s then 1
         else 0)) := by
  unfold processContainer containerAcceptedIdent
  split
  · simp
  · split
    · simp
    · rename_i status heq
      split
      · simp
      · split
        · simp
        · split
          · rename_i hcont
            rw [List.elem_iff] at hcont
            simp only [Option.some.injEq]
            by_cases hs : s ∈ st.seenContainers
            · simp [hs]
            · have hne : ¬(ident pod container.name status.restartCount = s) :=
                fun he => hs (he ▸ hcont)
              simp [hs, hne]
          · rename_i hcont
            have hid : ident pod container.name status.restartCount ∉ st.seenContainers :=
              fun hmem => hcont (List.elem_iff.mpr hmem)
            simp only [List.map_append, List.count_append, List.map_cons, List.map_nil]
            have hL : launchIdent ⟨pod, container.name, status.restartCount⟩ =
                ident pod container.name status.restartCount := rfl
            rw [List.count_singleton']
            by_cases hs : s ∈ st.seenContainers
            · have hne : ¬(launchIdent ⟨pod, container.name, status.restartCount⟩ = s) := by
                rw [hL]
                exact fun he => hid (he ▸ hs)
              simp [hs, hne]
            · simp [hs, hL, Option.some.injEq]

/-- Arithmetic of first-occurrence contributions under sequential
composition of two acceptance phases. -/
theorem addContrib (seenP memA memB : Prop) [Decidable seenP] [Decidable memA]
    [Decidable memB] :
    ((if seenP then 0 else if memA then 1 else 0) +
        (if (seenP ∨ memA) then 0 else if memB then 1 else 0) : Nat) =
      (if seenP then 0 else if (memA ∨ memB) then 1 else 0) := by
  by_cases h1 : seenP <;> by_cases h2 : memA <;> by_cases h3 : memB <;>
    simp [h1, h2, h3]

theorem foldContainers_mem_count (cfg : Config) (pod : Pod)
    (statuses : List ContainerStatus) (cs : List Container) :
    ∀ (st : WState) (s : String),
      (s ∈ (startLogCollectorsForContainers cfg pod cs statuses st).seenContainers ↔
        s ∈ st.seenContainers ∨
          s ∈ cs.filterMap (containerAcceptedIdent cfg pod statuses))
      ∧ (((startLogCollectorsForContainers cfg pod cs statuses st).launches.map
            launchIdent).count s =
          ((st.launches.map launchIdent).count s) +
            (if s ∈ st.seenContainers then 0
             else if s ∈ cs.filterMap (containerAcceptedIdent cfg pod statuses) then 1
             else 0)) := by
  induction cs with
  | nil => intro st s; simp [startLogCollectorsForContainers]
  | cons c cs ih =>
    intro st s
    have hunfold : startLogCollectorsForContainers cfg pod (c :: cs) statuses st =
        startLogCollectorsForContainers cfg pod cs statuses
          (processContainer cfg pod statuses st c) := rfl
    have hstep_mem := processContainer_mem_seen cfg pod statuses st c s
    have hstep_cnt := processContainer_count cfg pod statuses st c s
    obtain ⟨ihm, ihc⟩ := ih (processContainer cfg pod statuses st c) s
    rw [hunfold]
    constructor
    · rw [ihm, hstep_mem]
      cases hfc : containerAcceptedIdent cfg pod statuses c with
      | none => simp [List.filterMap_cons, hfc]
      | some id =>
        simp only [List.filterMap_cons, hfc, List.mem_cons, Option.some.injEq]
        constructor
        · rintro ((h | rfl) | h)
          · exact Or.inl h
          · exact Or.inr (Or.inl rfl)
          · exact Or.inr (Or.inr h)
        · rintro (h | (rfl | h))
          · exact Or.inl (Or.inl h)
          · exact Or.inl (Or.inr rfl)
          · exact Or.inr h
    · rw [ihc, hstep_cnt]
      have hmem1 := hstep_mem
      cases hfc : containerAcceptedIdent cfg pod statuses c with
      | none =>
        rw [hfc] at hmem1
        simp only [List.filterMap_cons, hfc]
        have hm : s ∈ (processContainer cfg pod statuses st c).seenContainers ↔
            s ∈ st.seenContainers := by rw [hmem1]; simp
        simp [hm]
      | some id =>
        rw [hfc] at hmem1
        simp only [List.filterMap_cons, hfc]
        by_cases hs : s ∈ st.seenContainers
        · simp [hs, hmem1]
        · by_cases hid : id = s
          · subst hid
            simp [hs, hmem1]
          · have hid2 : ¬(s = id) := fun h => hid h.symm
            simp [hs, hid, hid2, hmem1]

theorem watchEvent_mem_count (cfg : Config) (st : WState) (event : Option Pod)
    (s : String) :
    (s ∈ (watchEvent cfg st event).seenContainers ↔
      s ∈ st.seenContainers ∨ s ∈ eventAcceptedIdents cfg event)
    ∧ (((watchEvent cfg st event).launches.map launchIdent).count s =
        ((st.launches.map launchIdent).count s) +
          (if s ∈ st.seenContainers then 0
           else if s ∈ eventAcceptedIdents cfg event then 1 else 0)) := by
  match event with
  | none => simp [watchEvent, eventAcceptedIdents]
  | some pod =>
    simp only [watchEvent, eventAcceptedIdents, podAcceptedIdents]
    by_cases hcrit : podMatchesCriteria cfg pod
    · simp only [hcrit, if_pos, if_true]
      obtain ⟨m1, c1⟩ := foldContainers_mem_count cfg pod
        pod.status.initContainerStatuses pod.spec.initContainers st s
      obtain ⟨m2, c2⟩ := foldContainers_mem_count cfg pod
        pod.status.containerStatuses pod.spec.containers
        (startLogCollectorsForContainers cfg pod pod.spec.initContainers
          pod.status.initContainerStatuses st) s
      have hunfold : startLogCollectors cfg pod st =
          startLogCollectorsForContainers cfg pod pod.spec.containers
            pod.status.containerStatuses
            (startLogCollectorsForContainers cfg pod pod.spec.initContainers
              pod.status.initContainerStatuses st) := rfl
      rw [hunfold]
      constructor
      · rw [m2, m1, List.mem_append, or_assoc]
      · rw [c2, c1]
        have hiff : (s ∈ (startLogCollectorsForContainers cfg pod
            pod.spec.initContainers pod.status.initContainerStatuses st).seenContainers) ↔
            (s ∈ st.seenContainers ∨ s ∈ pod.spec.initContainers.filterMap
              (containerAcceptedIdent cfg pod pod.status.initContainerStatuses)) := m1
        rw [Nat.add_assoc]
        congr 1
        calc (if s ∈ st.seenContainers then 0
                else if s ∈ pod.spec.initContainers.filterMap
                  (containerAcceptedIdent cfg pod pod.status.initContainerStatuses)
                  then 1 else 0) +
              (if s ∈ (startLogCollectorsForContainers cfg pod
                  pod.spec.initContainers pod.status.initContainerStatuses
                  st).seenContainers then 0
               else if s ∈ pod.spec.containers.filterMap
                  (containerAcceptedIdent cfg pod pod.status.containerStatuses)
                  then 1 else 0)
            = (if s ∈ st.seenContainers then 0
                else if s ∈ pod.spec.initContainers.filterMap
                  (containerAcceptedIdent cfg pod pod.status.initContainerStatuses)
                  then 1 else 0) +
              (if (s ∈ st.seenContainers ∨ s ∈ pod.spec.initContainers.filterMap
                  (containerAcceptedIdent cfg pod pod.status.initContainerStatuses))
                  then 0
               else if s ∈ pod.spec.containers.filterMap
                  (containerAcceptedIdent cfg pod pod.status.containerStatuses)
                  then 1 else 0) := by rw [if_congr hiff rfl rfl]
          _ = _ := by
              rw [addContrib]
              by_cases h : s ∈ st.seenContainers
              · simp [h]
              · simp [h, List.mem_append]
    · simp [hcrit]

theorem foldEvents_mem_count (cfg : Config) (events : List (Option Pod)) :
    ∀ (st : WState) (s : String),
      (s ∈ (events.foldl (watchEvent cfg) st).seenContainers ↔
        s ∈ st.seenContainers ∨ s ∈ events.flatMap (eventAcceptedIdents cfg))
      ∧ (((events.foldl (watchEvent cfg) st).launches.map launchIdent).count s =
          ((st.launches.map launchIdent).count s) +
            (if s ∈ st.seenContainers then 0
             else if s ∈ events.flatMap (eventAcceptedIdents cfg) then 1 else 0)) := by
  induction events with
  | nil => intro st s; simp
  | cons e events ih =>
    intro st s
    have hunfold : (e :: events).foldl (watchEvent cfg) st =
        events.foldl (watchEvent cfg) (watchEvent cfg st e) := rfl
    obtain ⟨sm, sc⟩ := watchEvent_mem_count cfg st e s
    obtain ⟨ihm, ihc⟩ := ih (watchEvent cfg st e) s
    rw [hunfold]
    have hflat : (e :: events).flatMap (eventAcceptedIdents cfg) =
        eventAcceptedIdents cfg e ++ events.flatMap (eventAcceptedIdents cfg) := rfl
    constructor
    · rw [ihm, sm, hflat, List.mem_append, or_assoc]
    · rw [ihc, sc, hflat, Nat.add_assoc]
      congr 1
      rw [if_congr sm rfl rfl, addContrib]
      by_cases h : s ∈ st.seenContainers
      · simp [h]
      · simp [h, List.mem_append]

/-- **C1** (dedup / idempotent dispatch): over any observation sequence
processed by `Watcher.Watch` from a fresh seen-set, the number of
`collectLogs` capture tasks launched for a given CaptureIdentity is exactly
one when at least one observation presenting that identity passes every
acceptance check (name/namespace/container filters, status present, phase
accepted), and zero otherwise; moreover the identity is in the seen-set
afterwards exactly when such an accepted observation occurred, so every
later equal-identity observation is skipped by the seen-set check. -/
theorem claim_C1 (cfg : Config) (events : List (Option Pod)) (s : String) :
    (((watchRun cfg events).launches.map launchIdent).count s =
      (if s ∈ events.flatMap (eventAcceptedIdents cfg) then 1 else 0))
    ∧ (s ∈ (watchRun cfg events).seenContainers ↔
        s ∈ events.flatMap (eventAcceptedIdents cfg)) := by
  obtain ⟨m, c⟩ := foldEvents_mem_count cfg events ⟨[], []⟩ s
  constructor
  · rw [watchRun, c]
    simp
  · rw [watchRun, m]
    simp

/-- **C3** (phase gating): a container observation launches a capture task
only when its status exists and its phase is accepted — a missing status or
a Waiting state (neither Running nor Terminated sub-object) never launches
under either `runningOnly` value; with `runningOnly` a non-Running status
never launches; any launch implies Running, or Terminated with
`runningOnly` false; and conversely an observation that passes the name
filter with an accepted, not-yet-seen status does launch. -/
theorem claim_C3 (cfg : Config) (pod : Pod) (statuses : List ContainerStatus)
    (st : WState) (container : Container) :
    (findStatus statuses container.name = none →
      processContainer cfg pod statuses st container = st)
    ∧ (∀ status, findStatus statuses container.name = some status →
        status.running = false → status.terminated = false →
        processContainer cfg pod statuses st container = st)
    ∧ (cfg.runningOnly = true →
        ∀ status, findStatus statuses container.name = some status →
        status.running = false →
        processContainer cfg pod statuses st container = st)
    ∧ ((processContainer cfg pod statuses st container).launches ≠ st.launches →
        ∃ status, findStatus statuses container.name = some status ∧
          (status.running = true ∨
            (cfg.runningOnly = false ∧ status.terminated = true)))
    ∧ (∀ status, findStatus statuses container.name = some status →
        containerNameMatches cfg container.name = true →
        (if cfg.runningOnly then status.running = true
         else status.running = true ∨ status.terminated = true) →
        ident pod container.name status.restartCount ∉ st.seenContainers →
        (processContainer cfg pod statuses st container).launches =
          st.launches ++ [⟨pod, container.name, status.restartCount⟩]) := by
  refine ⟨?_, ?_, ?_, ?_, ?_⟩
  · intro h
    unfold processContainer
    split
    · rfl
    · rw [h]
  · intro status hfind hrun hterm
    unfold processContainer
    split
    · rfl
    · rw [hfind]
      simp [hrun, hterm]
      intro hro
      simp [hro]
  · intro hro status hfind hrun
    unfold processContainer
    split
    · rfl
    · rw [hfind]
      simp [hro, hrun]
  · intro h
    unfold processContainer at h
    split at h
    · exact absurd rfl h
    · split at h
      · exact absurd rfl h
      · rename_i status heq
        split at h
        · exact absurd rfl h
        · rename_i h1
          split at h
          · exact absurd rfl h
          · rename_i h2
            refine ⟨status, heq, ?_⟩
            cases hrun : status.running with
            | true => exact Or.inl rfl
            | false =>
              cases hro : cfg.runningOnly with
              | true => exact absurd (by simp [hro, hrun]) h1
              | false =>
                cases hterm : status.terminated with
                | true => exact Or.inr ⟨rfl, rfl⟩
                | false => exact absurd (by simp [hro, hrun, hterm]) h2
  · intro status hfind hname haccept hseen
    have h1 : ¬((cfg.runningOnly && !status.running) = true) := by
      cases hro : cfg.runningOnly with
      | false => simp
      | true =>
        rw [hro] at haccept
        simp only [if_true] at haccept
        simp [haccept]
    have h2 : ¬((!cfg.runningOnly && !status.running && !status.terminated) = true) := by
      cases hro : cfg.runningOnly with
      | true => simp
      | false =>
        rw [hro] at haccept
        simp only [Bool.false_eq_true, if_false] at haccept
        rcases haccept with h | h <;> simp [h]
    have hc : ¬(st.seenContainers.contains
        (ident pod container.name status.restartCount) = true) :=
      fun hcon => hseen (List.elem_iff.mp hcon)
    unfold processContainer
    rw [hname, hfind]
    simp [h1, h2, hc, hseen]

/-- **C7** (pattern default / accept-all): with all three pattern sets
empty, every (name, namespace, container) combination is accepted — the
pod criteria and the container-name filter return `true` for every pod and
container name, because `needleMatchesPatterns` returns `true` on an empty
pattern list for every needle. -/
theorem claim_C7 (pod : Pod) (containerName : String) (runningOnly : Bool) :
    podMatchesCriteria ⟨[], [], [], runningOnly⟩ pod = true
    ∧ containerNameMatches ⟨[], [], [], runningOnly⟩ containerName = true
    ∧ (∀ needle : String, needleMatchesPatterns needle [] = true) := by
  refine ⟨?_, ?_, ?_⟩ <;>
    simp [podMatchesCriteria, containerNameMatches, needleMatchesPatterns]

/-- A wildcard-free, class-free, escape-free chunk matches exactly itself as
a prefix of the name (the literal-comparison branch of `matchChunk`). -/
theorem matchChunk_literal (cs : List Char)
    (hcs : ∀ c ∈ cs, (c == '[') = false ∧ (c == '?') = false ∧ (c == '\\') = false) :
    ∀ s : List Char, matchChunk false cs (cs ++ s) = .ok (some s) := by
  induction cs with
  | nil => intro s; rfl
  | cons c cs ih =>
    intro s
    obtain ⟨hb, hq, he⟩ := hcs c (List.mem_cons_self c cs)
    show matchChunkF ((c :: cs).length + 1) false (c :: cs) ((c :: cs) ++ s) =
      .ok (some s)
    rw [List.length_cons]
    simp only [matchChunkF, List.cons_append, List.isEmpty_cons, hb, hq, he,
      Bool.or_false, Bool.false_or, Bool.false_eq_true, if_false,
      beq_self_eq_true, Bool.not_true]
    exact ih (fun d hd => hcs d (List.mem_cons_of_mem c hd)) s

/-- **C8** (glob OR semantics): a non-empty pattern set matches iff some
individual pattern matches; a wildcard-free pattern requires exact string
equality; a wildcard pattern is decided by `filepath.Match`; concretely,
`"kube-*"` matches `"kube-system"` and `"kube-proxy"` but not `"default"`,
and in general `"kube-*"` accepts `"kube-" ++ s` for every
separator-free suffix `s` (the `*` absorbs any run of characters within a
single segment). -/
theorem claim_C8 :
    (∀ (needle : String) (patterns : List String), patterns ≠ [] →
      (needleMatchesPatterns needle patterns = true ↔
        ∃ p ∈ patterns, nameMatches needle p = true))
    ∧ (∀ name pattern : String, pattern.data.contains '*' = false →
        (nameMatches name pattern = true ↔ name = pattern))
    ∧ (∀ (name pattern : String) (b : Bool), pattern.data.contains '*' = true →
        goMatch pattern.data name.data = .ok b → nameMatches name pattern = b)
    ∧ nameMatches "kube-system" "kube-*" = true
    ∧ nameMatches "kube-proxy" "kube-*" = true
    ∧ nameMatches "default" "kube-*" = false
    ∧ (∀ s : List Char, '/' ∉ s →
        goMatch "kube-*".data ("kube-".data ++ s) = .ok true) := by
  refine ⟨?_, ?_, ?_, by decide, by decide, by decide, ?_⟩
  · intro needle patterns hne
    unfold needleMatchesPatterns
    rw [if_neg (by simp [List.isEmpty_iff, hne])]
    exact List.any_eq_true
  · intro name pattern hnostar
    unfold nameMatches
    rw [if_neg (by rw [hnostar]; simp)]
    exact beq_iff_eq
  · intro name pattern b hstar hgm
    unfold nameMatches
    rw [if_pos hstar, hgm]
  · intro s hs
    have hscan : scanAll "kube-*".data =
        [⟨false, "kube-".data⟩, ⟨true, ([] : List Char)⟩] := rfl
    have happ : ("kube-".data ++ s) = "kube-".data ++ s := rfl
    unfold goMatch
    rw [hscan, matchChunks.eq_def]
    have hmc : matchChunk false "kube-".data ("kube-".data ++ s) = .ok (some s) :=
      matchChunk_literal "kube-".data (by decide) s
    simp only [Bool.false_and, Bool.false_eq_true, if_false, hmc,
      List.isEmpty_cons, Bool.not_false, Bool.or_true, if_true]
    rw [matchChunks.eq_def]
    simp only [List.isEmpty_nil, Bool.and_true, if_true]
    have hcontains : s.contains '/' = false := by
      cases hc : s.contains '/' with
      | false => rfl
      | true => exact absurd (List.elem_iff.mp hc) hs
    rw [hcontains]
    rfl

/-- **C9** (malformed glob safety): `nameMatches` never propagates
`ErrBadPattern` — a wildcard pattern whose `filepath.Match` call errors
yields `false` (no match) for every name, and a `true` overall result from
`needleMatchesPatterns` on a non-empty set can only come from some
individual pattern matching, so one malformed pattern can neither raise an
error nor turn the set into accept-all; concretely the malformed pattern
`"*["` errors and is treated as no-match. -/
theorem claim_C9 :
    (∀ name pattern : String, pattern.data.contains '*' = true →
      goMatch pattern.data name.data = .error () → nameMatches name pattern = false)
    ∧ (∀ (needle : String) (patterns : List String),
        needleMatchesPatterns needle patterns = true →
        patterns = [] ∨ ∃ p ∈ patterns, nameMatches needle p = true)
    ∧ goMatch "*[".data "x".data = .error ()
    ∧ nameMatches "x" "*[" = false
    ∧ needleMatchesPatterns "x" ["*[", "y"] = false := by
  refine ⟨?_, ?_, by rfl, by decide, by decide⟩
  · intro name pattern hstar hgm
    unfold nameMatches
    rw [if_pos hstar, hgm]
  · intro needle patterns h
    unfold needleMatchesPatterns at h
    by_cases he : patterns.isEmpty
    · exact Or.inl (List.isEmpty_iff.mp he)
    · rw [if_neg he] at h
      exact Or.inr (List.any_eq_true.mp h)

/-! ## Disk collector (`pkg/collector/disk.go`) -/

structure DiskCollector where
  directory : String
  flatFiles : Bool
  deriving DecidableEq, Repr

/-- `c.getDirectory(pod)`: a per-namespace subdirectory unless `flatFiles`.
The `os.MkdirAll` side effect is modelled as always succeeding;
`filepath.Join` on clean relative components is `++ "/" ++`. -/
def getDirectory (c : DiskCollector) (pod : Pod) : String :=
  if !c.flatFiles then c.directory ++ "/" ++ pod.nspace else c.directory

/-- `getContainerIncarnation(pod, containerName)`: the restart count of the
matching entry of `pod.Status.ContainerStatuses` — note that the loop ranges
over the regular container statuses only, never over
`pod.Status.InitContainerStatuses` — and `0` when no entry matches. -/
def getContainerIncarnation (pod : Pod) (containerName : String) : Nat :=
  match pod.status.containerStatuses.find? (fun s => s.name == containerName) with
  | some s => s.restartCount
  | none => 0

/-- Go `fmt.Sprintf("%03d", n)` for `n ≥ 0`: decimal, zero-padded to width 3. -/
def pad3 (n : Nat) : String :=
  String.mk (List.replicate (3 - (toString n).length) '0') ++ toString n

/-- The destination file created by `diskCollector.CollectLogs`:
`filepath.Join(getDirectory(pod), fmt.Sprintf("%s_%s_%03d.log", pod.Name,
containerName, getContainerIncarnation(pod, containerName)))`. -/
def logDestination (c : DiskCollector) (pod : Pod) (containerName : String) : String :=
  getDirectory c pod ++ "/" ++ pod.name ++ "_" ++ containerName ++ "_" ++
    pad3 (getContainerIncarnation pod containerName) ++ ".log"

/-- Filesystem model for the metadata path: an association list from path to
content; later writes shadow earlier entries and `os.Stat` succeeds exactly
when the path is present. -/
abbrev FileSystem := List (String × String)

def statExists (fs : FileSystem) (path : String) : Bool :=
  (fs.lookup path).isSome

def writeFile (fs : FileSystem) (path content : String) : FileSystem :=
  (path, content) :: fs

/-- The metadata file of `CollectPodMetadata`: `<pod.Name>.yaml` in the
pod's directory. -/
def metadataPath (c : DiskCollector) (pod : Pod) : String :=
  getDirectory c pod ++ "/" ++ pod.name ++ ".yaml"

/-- `diskCollector.CollectPodMetadata`: if `os.Stat` finds the file, return
`nil` without writing ("file exists already, do not overwrite"); otherwise
marshal the pod and write the file.  `marshal` stands for `yaml.Marshal`
applied to the pod after its `APIVersion`/`Kind` fields are set (type meta
is not part of the modelled `Pod`, so the serializer is a parameter);
`yaml.Marshal` and `os.WriteFile` are modelled as succeeding. -/
def diskCollectPodMetadata (c : DiskCollector) (marshal : Pod → String)
    (fs : FileSystem) (pod : Pod) : FileSystem × Except String Unit :=
  if statExists fs (metadataPath c pod) then (fs, .ok ())
  else (writeFile fs (metadataPath c pod) (marshal pod), .ok ())

/-- **C5** (metadata idempotence): `CollectPodMetadata` succeeds and never
touches an existing metadata file — a second call for the same resource
identity is a no-op returning success, so the first-written content stays;
when the file is absent the first call writes the marshalled pod. -/
theorem claim_C5 (c : DiskCollector) (marshal : Pod → String)
    (fs : FileSystem) (pod : Pod) :
    (diskCollectPodMetadata c marshal
        (diskCollectPodMetadata c marshal fs pod).1 pod) =
      ((diskCollectPodMetadata c marshal fs pod).1, .ok ())
    ∧ (diskCollectPodMetadata c marshal fs pod).2 = .ok ()
    ∧ (statExists fs (metadataPath c pod) = false →
        ((diskCollectPodMetadata c marshal fs pod).1).lookup (metadataPath c pod) =
          some (marshal pod))
    ∧ (statExists fs (metadataPath c pod) = true →
        (diskCollectPodMetadata c marshal fs pod).1 = fs) := by
  by_cases hstat : statExists fs (metadataPath c pod)
  · refine ⟨?_, ?_, ?_, ?_⟩ <;>
      simp [diskCollectPodMetadata, hstat]
  · have hwritten : statExists
        (writeFile fs (metadataPath c pod) (marshal pod)) (metadataPath c pod) = true := by
      simp [statExists, writeFile]
    refine ⟨?_, ?_, ?_, ?_⟩
    · simp [diskCollectPodMetadata, hstat, hwritten]
    · simp [diskCollectPodMetadata, hstat]
    · intro
      simp [diskCollectPodMetadata, hstat, writeFile]
    · intro h
      exact absurd h hstat

/-! Concrete scenario for C2: pod `web` in namespace `default` with one init
container `setup`, observed first with restart count 0 and again, after a
restart, with restart count 1; and the analogous pod with a regular
container `app`. -/

def podSetup0 : Pod :=
  { name := "web", nspace := "default",
    spec := { initContainers := [⟨"setup"⟩], containers := [] },
    status := { initContainerStatuses := [⟨"setup", 0, true, false⟩],
                containerStatuses := [] } }

def podSetup1 : Pod :=
  { name := "web", nspace := "default",
    spec := { initContainers := [⟨"setup"⟩], containers := [] },
    status := { initContainerStatuses := [⟨"setup", 1, true, false⟩],
                containerStatuses := [] } }

def podApp0 : Pod :=
  { name := "web", nspace := "default",
    spec := { initContainers := [], containers := [⟨"app"⟩] },
    status := { initContainerStatuses := [],
                containerStatuses := [⟨"app", 0, true, false⟩] } }

def podApp1 : Pod :=
  { name := "web", nspace := "default",
    spec := { initContainers := [], containers := [⟨"app"⟩] },
    status := { initContainerStatuses := [],
                containerStatuses := [⟨"app", 1, true, false⟩] } }

/-- The accept-everything configuration (all pattern sets empty,
`runningOnly` off). -/
def cfgAll : Config := ⟨[], [], [], false⟩

def diskOut : DiskCollector := ⟨"out", false⟩

/-- **C2** (destination keyed by identity) — refuted on the code for init
containers: observing the init container `setup` with restart count 0 and
then 1 launches two capture tasks with two distinct CaptureIdentities, yet
both tasks' disk destinations are the same file
`out/default/web_setup_000.log`, because `getContainerIncarnation` searches
only `Status.ContainerStatuses` and returns 0 for every init container.
The same two observations of a regular container `app` produce the two
distinct destinations `.._000.log` and `.._001.log` that the claim
describes. -/
theorem claim_C2 :
    ((watchRun cfgAll [some podSetup0, some podSetup1]).launches.map
        (fun l => (launchIdent l, logDestination diskOut l.pod l.containerName)) =
      [("default:web:setup:0", "out/default/web_setup_000.log"),
       ("default:web:setup:1", "out/default/web_setup_000.log")])
    ∧ ("default:web:setup:0" : String) ≠ "default:web:setup:1"
    ∧ ((watchRun cfgAll [some podApp0, some podApp1]).launches.map
        (fun l => (launchIdent l, logDestination diskOut l.pod l.containerName)) =
      [("default:web:app:0", "out/default/web_app_000.log"),
       ("default:web:app:1", "out/default/web_app_001.log")])
    ∧ ("out/default/web_app_000.log" : String) ≠ "out/default/web_app_001.log" := by
  refine ⟨by decide, by decide, by decide, by decide⟩

/-! ## Multiplex collector (`pkg/collector/multiplex.go`) -/

/-- `multiplexCollector.CollectPodMetadata`: run delegate `a`; if it errors,
return that error without invoking `b`; otherwise run `b` and return its
result.  Delegates are modelled as state transformers so that "`b` is not
invoked" is observable: on the short circuit `b`'s state comes back
untouched. -/
def multiplexCollectPodMetadata {σa σb : Type}
    (a : σa → σa × Except String Unit) (b : σb → σb × Except String Unit)
    (sa : σa) (sb : σb) : σa × σb × Except String Unit :=
  match a sa with
  | (sa1, .error e) => (sa1, sb, .error e)
  | (sa1, .ok ()) => ((sa1, (b sb).1, (b sb).2) : σa × σb × Except String Unit)

/-- `multiplexCollector.CollectEvent` delegates with the identical
short-circuit structure. -/
def multiplexCollectEvent {σa σb : Type}
    (a : σa → σa × Except String Unit) (b : σb → σb × Except String Unit)
    (sa : σa) (sb : σb) : σa × σb × Except String Unit :=
  match a sa with
  | (sa1, .error e) => (sa1, sb, .error e)
  | (sa1, .ok ()) => ((sa1, (b sb).1, (b sb).2) : σa × σb × Except String Unit)

/-- **C6** (sequential delegation short-circuit): for the composite's
metadata and event recording, a failure of the first delegate is returned
as-is and the second delegate is never invoked (its state is untouched);
when the first delegate succeeds, the second runs and its result is
returned. -/
theorem claim_C6 {σa σb : Type} (a : σa → σa × Except String Unit)
    (b : σb → σb × Except String Unit) (sa : σa) (sb : σb) :
    (∀ e sa1, a sa = (sa1, .error e) →
      multiplexCollectPodMetadata a b sa sb = (sa1, sb, .error e)
      ∧ multiplexCollectEvent a b sa sb = (sa1, sb, .error e))
    ∧ (∀ sa1, a sa = (sa1, .ok ()) →
        multiplexCollectPodMetadata a b sa sb = (sa1, (b sb).1, (b sb).2)
        ∧ multiplexCollectEvent a b sa sb = (sa1, (b sb).1, (b sb).2)) := by
  constructor
  · intro e sa1 ha
    constructor <;> simp [multiplexCollectPodMetadata, multiplexCollectEvent, ha]
  · intro sa1 ha
    constructor <;> simp [multiplexCollectPodMetadata, multiplexCollectEvent, ha]

/-! ### Tee-based `CollectLogs`

`CollectLogs` builds `pipeReader, pipeWriter := io.Pipe()` and
`teeReader := io.TeeReader(stream, pipeWriter)`; goroutine `a` runs
`c.a.CollectLogs(..., teeReader)` and on return closes the pipe writer and
calls `waiter.Done()`; goroutine `b` runs `c.b.CollectLogs(..., pipeReader)`
then `Done()`; the composite `waiter.Wait()`s for both and returns `nil`.
The state machine below models the byte flow: every byte `a` reads through
the tee is appended, in order, to the pipe feeding `b`; scheduling of the
two consumers is an arbitrary interleaving of actions. -/

structure TeeState (α : Type) where
  upstream : List α   -- unread remainder of the source stream
  pipe : List α       -- written to the pipe, not yet read by b
  aSeen : List α      -- bytes delegate a has consumed (via the TeeReader)
  bSeen : List α      -- bytes delegate b has consumed (via the pipe reader)
  pipeClosed : Bool   -- pipeWriter.Close() has run
  aDone : Bool        -- goroutine a has called waiter.Done()
  bDone : Bool        -- goroutine b has called waiter.Done()
  deriving DecidableEq, Repr

inductive TeeAct
  | readA (n : Nat)  -- a reads up to n bytes through the TeeReader
  | readB (n : Nat)  -- b reads up to n bytes from the pipe reader
  | finishA          -- a's CollectLogs returns; pipeWriter.Close(); Done()
  | finishB          -- b's CollectLogs returns; Done()
  deriving DecidableEq, Repr

def teeInit {α : Type} (B : List α) : TeeState α :=
  ⟨B, [], [], [], false, false, false⟩

def teeStep {α : Type} (s : TeeState α) (act : TeeAct) : TeeState α :=
  match act with
  | .readA n =>
    if s.aDone then s
    else
      { s with upstream := s.upstream.drop n,
               aSeen := s.aSeen ++ s.upstream.take n,
               pipe := s.pipe ++ s.upstream.take n }
  | .readB n =>
    if s.bDone then s
    else { s with pipe := s.pipe.drop n, bSeen := s.bSeen ++ s.pipe.take n }
  | .finishA => { s with pipeClosed := true, aDone := true }
  | .finishB => { s with bDone := true }

def runTee {α : Type} (B : List α) (acts : List TeeAct) : TeeState α :=
  acts.foldl teeStep (teeInit B)

/-- The composite `CollectLogs`'s return: available only once
`waiter.Wait()` observes both `Done()`s, and then it is Go's `return nil`;
the delegates' own results `ra`, `rb` are discarded by the goroutines
(`c.a.CollectLogs(...)` and `c.b.CollectLogs(...)` are called for their
effects only). -/
def multiplexCollectLogsReturn {α : Type} (ra rb : Except String Unit)
    (s : TeeState α) : Option (Except String Unit) :=
  if s.aDone && s.bDone then some (.ok ()) else none

theorem teeInvariant {α : Type} (B : List α) (acts : List TeeAct) :
    ∀ s : TeeState α, s.bSeen ++ s.pipe = s.aSeen → s.aSeen ++ s.upstream = B →
      ((acts.foldl teeStep s).bSeen ++ (acts.foldl teeStep s).pipe =
        (acts.foldl teeStep s).aSeen)
      ∧ ((acts.foldl teeStep s).aSeen ++ (acts.foldl teeStep s).upstream = B) := by
  induction acts with
  | nil => intro s h1 h2; exact ⟨h1, h2⟩
  | cons act acts ih =>
    intro s h1 h2
    have hstep : (teeStep s act).bSeen ++ (teeStep s act).pipe = (teeStep s act).aSeen
        ∧ (teeStep s act).aSeen ++ (teeStep s act).upstream = B := by
      match act with
      | .readA n =>
        by_cases hd : s.aDone
        · simp [teeStep, hd, h1, h2]
        · constructor
          · simp [teeStep, hd, ← List.append_assoc, h1]
          · simp [teeStep, hd, List.append_assoc, List.take_append_drop, h2]
      | .readB n =>
        by_cases hd : s.bDone
        · simp [teeStep, hd, h1, h2]
        · constructor
          · simp [teeStep, hd, List.append_assoc, List.take_append_drop, h1]
          · simp [teeStep, hd, h2]
      | .finishA => exact ⟨h1, h2⟩
      | .finishB => exact ⟨h1, h2⟩
    exact ih (teeStep s act) hstep.1 hstep.2

/-- **C4** (tee fidelity and join): along any interleaving of reads of the
two delegates, `b` observes exactly the prefix of the stream that `a` has
observed (bytes arrive in order, none duplicated or dropped), so when the
upstream is exhausted and the pipe drained — i.e. both delegates read to
end-of-stream — both have observed exactly the byte sequence `B`; and the
composite's return is available only after both delegates have finished. -/
theorem claim_C4 {α : Type} (B : List α) (acts : List TeeAct) :
    ((runTee B acts).bSeen ++ (runTee B acts).pipe = (runTee B acts).aSeen)
    ∧ ((runTee B acts).aSeen ++ (runTee B acts).upstream = B)
    ∧ ((runTee B acts).upstream = [] → (runTee B acts).pipe = [] →
        (runTee B acts).aSeen = B ∧ (runTee B acts).bSeen = B)
    ∧ (∀ (ra rb : Except String Unit) (r : Except String Unit),
        multiplexCollectLogsReturn ra rb (runTee B acts) = some r →
        (runTee B acts).aDone = true ∧ (runTee B acts).bDone = true) := by
  obtain ⟨h1, h2⟩ := teeInvariant B acts (teeInit B) rfl rfl
  refine ⟨h1, h2, ?_, ?_⟩
  · intro hup hpipe
    have h2b : (runTee B acts).aSeen ++ (runTee B acts).upstream = B := h2
    have h1b : (runTee B acts).bSeen ++ (runTee B acts).pipe = (runTee B acts).aSeen := h1
    rw [hup, List.append_nil] at h2b
    rw [hpipe, List.append_nil] at h1b
    exact ⟨h2b, h1b.trans h2b⟩
  · intro ra rb r h
    unfold multiplexCollectLogsReturn at h
    split at h
    · rename_i hc
      exact ⟨by simp_all, by simp_all⟩
    · exact absurd h (by simp)

/-- **C10** (errors discarded): the composite `CollectLogs` returns `nil`
for every input once both delegates have finished — the delegates' results
are never consulted, so even two failing delegates produce a successful
composite return. -/
theorem claim_C10 {α : Type} (ra rb : Except String Unit) (s : TeeState α) :
    (s.aDone = true → s.bDone = true →
      multiplexCollectLogsReturn ra rb s = some (.ok ()))
    ∧ (∀ r, multiplexCollectLogsReturn ra rb s = some r → r = .ok ())
    ∧ (∀ e e2, multiplexCollectLogsReturn (.error e) (.error e2) s =
        multiplexCollectLogsReturn ra rb s) := by
  refine ⟨?_, ?_, ?_⟩
  · intro ha hb
    simp [multiplexCollectLogsReturn, ha, hb]
  · intro r h
    unfold multiplexCollectLogsReturn at h
    split at h
    · cases h
      rfl
    · exact absurd h (by simp)
  · intro e e2
    rfl

/-! ## Witnesses: concrete instantiations of the hypothesised theorems -/

/-- Witness for C3: a Waiting container (status present, neither Running nor
Terminated) and a status-less container are both skipped. -/
theorem claim_C3_witness :
    processContainer cfgAll podSetup0 [⟨"app", 0, false, false⟩] ⟨[], []⟩ ⟨"app"⟩ =
      (⟨[], []⟩ : WState)
    ∧ processContainer cfgAll podSetup0 [] ⟨[], []⟩ ⟨"app"⟩ = (⟨[], []⟩ : WState) :=
  ⟨(claim_C3 cfgAll podSetup0 [⟨"app", 0, false, false⟩] ⟨[], []⟩ ⟨"app"⟩).2.1
      ⟨"app", 0, false, false⟩ rfl rfl rfl,
   (claim_C3 cfgAll podSetup0 [] ⟨[], []⟩ ⟨"app"⟩).1 rfl⟩

/-- Witness for C4: a concrete interleaved schedule over the bytes
`[1, 2, 3]` in which both delegates drain; both observe the full
sequence. -/
theorem claim_C4_witness :
    (runTee [1, 2, 3]
        [.readA 2, .readB 5, .readA 5, .readB 5, .finishA, .finishB]).aSeen =
      [1, 2, 3]
    ∧ (runTee [1, 2, 3]
        [.readA 2, .readB 5, .readA 5, .readB 5, .finishA, .finishB]).bSeen =
      [1, 2, 3] :=
  (claim_C4 [1, 2, 3]
    [.readA 2, .readB 5, .readA 5, .readB 5, .finishA, .finishB]).2.2.1 rfl rfl

/-- Witness for C5: on an empty filesystem the first call writes the
marshalled pod. -/
theorem claim_C5_witness :
    ((diskCollectPodMetadata diskOut (fun _ => "podyaml") [] podSetup0).1).lookup
      (metadataPath diskOut podSetup0) = some "podyaml" :=
  (claim_C5 diskOut (fun _ => "podyaml") [] podSetup0).2.2.1 rfl

/-- Witness for C6: a failing first delegate short-circuits (the second
delegate's state 0 is untouched); a succeeding first delegate hands over to
the second. -/
theorem claim_C6_witness :
    multiplexCollectPodMetadata (fun n : Nat => (n + 1, .error "boom"))
      (fun n : Nat => (n * 2, .ok ())) 0 0 = (1, 0, .error "boom")
    ∧ multiplexCollectPodMetadata (fun n : Nat => (n + 1, .ok ()))
      (fun n : Nat => (n * 2, .ok ())) 0 3 = (1, 6, .ok ()) :=
  ⟨((claim_C6 (fun n : Nat => (n + 1, .error "boom"))
      (fun n : Nat => (n * 2, .ok ())) 0 0).1 "boom" 1 rfl).1,
   ((claim_C6 (fun n : Nat => (n + 1, .ok ()))
      (fun n : Nat => (n * 2, .ok ())) 0 3).2 1 rfl).1⟩

/-- Witness for C8: the OR over a one-element pattern set accepts
`kube-system`, and the trailing-star conjunct accepts a concrete suffix. -/
theorem claim_C8_witness :
    needleMatchesPatterns "kube-system" ["kube-*"] = true
    ∧ goMatch "kube-*".data ("kube-".data ++ ['d', 'n', 's']) = .ok true := by
  constructor
  · exact (claim_C8.1 "kube-system" ["kube-*"] (by decide)).mpr
      ⟨"kube-*", by decide, by decide⟩
  · exact claim_C8.2.2.2.2.2.2 ['d', 'n', 's'] (by decide)

/-- Witness for C9: the malformed wildcard pattern `*[` is treated as
no-match for the name `x`. -/
theorem claim_C9_witness : nameMatches "x" "*[" = false :=
  claim_C9.1 "x" "*[" (by decide) rfl

/-- Witness for C10: with both delegates finished and both having failed,
the composite still returns success. -/
theorem claim_C10_witness :
    multiplexCollectLogsReturn (α := Nat) (.error "a failed") (.error "b failed")
      ⟨[], [], [1], [1], true, true, true⟩ = some (.ok ()) :=
  (claim_C10 (.error "a failed") (.error "b failed")
    ⟨[], [], [1], [1], true, true, true⟩).1 rfl rfl
